import Mathlib

/-!
Shallow embedding of `couchfs.py` (a FUSE driver persisting a POSIX-like
tree into CouchDB documents and attachments), together with proofs about
the behaviour of its operations.

Modelling conventions:
* A CouchDB document is a `Doc`: its id, the `inode` record (path, mode,
  nlink, ctime, mtime) and at most the three named attachments
  (`dblock`, `symlink`, `dentry.json`), each modelled as an `Option` field.
* The database is a list of documents; the `by_path` view is a linear
  search on the stored `inode.path` (the driver takes the first row).
* The in-process open-handle table `self._inodes` is an association list
  `path ↦ (document snapshot, reference count)`; the count is an `Int`
  exactly as a Python integer.
* Timestamps: `_now()` is modelled by a logical clock in the state; each
  call returns the current clock and advances it.
* Mutating store primitives append an `Event` to a trace so that the
  order of store writes is observable.
* A raised Python exception is `FsResult.exn`; a returned `-errno` code is
  `FsResult.err`; a normal return is `FsResult.ok`.
-/

namespace CouchFS

/-- POSIX error codes returned by the driver (as `-errno.X` in the source). -/
inductive Errno where
  | ENOENT
  | EEXIST
  | ENOTEMPTY
  | EINVAL
deriving DecidableEq, Repr

/-- Outcome of one driver operation: a normal return value, a returned
`-errno` code, or a raised (uncaught at this level) Python exception. -/
inductive FsResult (α : Type) where
  | ok (v : α)
  | err (e : Errno)
  | exn
deriving DecidableEq, Repr

/-- The `inode` record stored inside a CouchDB document by `_create_inode`. -/
structure Inode where
  path : String
  mode : Nat
  nlink : Nat
  ctime : Nat
  mtime : Nat
deriving DecidableEq, Repr

/-- One CouchDB document: id, inode record, and the three possible named
attachments (`dblock`, `symlink`, `dentry.json`), each present or absent.
File bytes are a list of byte values; a directory-entry map is an
association list name ↦ child document id (Python dict, insertion order). -/
structure Doc where
  id : String
  inode : Inode
  dblock : Option (List Nat) := none
  symlink : Option String := none
  dentry : Option (List (String × String)) := none
deriving DecidableEq, Repr

/-- A mutating round trip to the document store, recorded in order. -/
inductive Event where
  | saveDoc (id : String)
  | deleteDoc (id : String)
  | putAttach (id : String) (name : String)
deriving DecidableEq, Repr

/-- Whole driver state: the remote database, the process-local open-handle
table `self._inodes`, a fresh-id counter for store-assigned document ids,
the logical clock behind `_now()`, and the trace of store writes. -/
structure FS where
  db : List Doc
  inodes : List (String × Doc × Int)
  nextId : Nat
  clock : Nat
  trace : List Event
deriving DecidableEq, Repr

/-- The `_now()` helper: returns the current timestamp and advances time. -/
def tick (s : FS) : Nat × FS :=
  (s.clock, { s with clock := s.clock + 1 })

/-- Lookup in the open-handle table `self._inodes` (a Python dict). -/
def cacheLookup (c : List (String × Doc × Int)) (p : String) :
    Option (Doc × Int) :=
  (c.find? (fun e => e.1 == p)).map (fun e => e.2)

/-- The in-place increment `self._inodes[path][1] += 1`. -/
def cacheBump (c : List (String × Doc × Int)) (p : String) :
    List (String × Doc × Int) :=
  c.map (fun e => if e.1 == p then (e.1, e.2.1, e.2.2 + 1) else e)

/-- The deletion `del self._inodes[path]`. -/
def cacheDel (c : List (String × Doc × Int)) (p : String) :
    List (String × Doc × Int) :=
  c.filter (fun e => ¬ e.1 == p)

/-- Python dict assignment `d[k] = v`: replace in place if the key is
present, else append at the end (dicts preserve insertion order). -/
def assocSet (l : List (String × String)) (k v : String) :
    List (String × String) :=
  if l.any (fun e => e.1 == k) then
    l.map (fun e => if e.1 == k then (k, v) else e)
  else l ++ [(k, v)]

/-- Python `del d[k]`: `none` models the `KeyError` on a missing key. -/
def assocDel (l : List (String × String)) (k : String) :
    Option (List (String × String)) :=
  if l.any (fun e => e.1 == k) then
    some (l.filter (fun e => ¬ e.1 == k))
  else none

/-- The `os.path.split` of posixpath: split after the last slash, then strip
trailing slashes from the head unless the head is empty or all slashes. -/
def py_split (p : String) : String × String :=
  let rev := p.data.reverse
  let tailRev := rev.takeWhile (fun c => c ≠ '/')
  let head := (rev.drop tailRev.length).reverse
  let head' :=
    if head ≠ [] ∧ head.any (fun c => c ≠ '/') then
      ((head.reverse.dropWhile (fun c => c = '/')).reverse)
    else head
  (String.mk head', String.mk tailRev.reverse)

/-- Fetch a document by id (`self._couchdb[id]` / attachment host lookup). -/
def db_find (db : List Doc) (i : String) : Option Doc :=
  db.find? (fun x => x.id == i)

/-- `self._couchdb.save(doc)`: create the document or replace the revision
with the same id. Records a `saveDoc` event. -/
def db_save (s : FS) (d : Doc) : FS :=
  if s.db.any (fun x => x.id == d.id) then
    { s with db := s.db.map (fun x => if x.id == d.id then d else x),
             trace := s.trace ++ [Event.saveDoc d.id] }
  else
    { s with db := s.db ++ [d],
             trace := s.trace ++ [Event.saveDoc d.id] }

/-- `self._couchdb.delete(doc)`: remove the document (and its attachments). -/
def db_delete (s : FS) (d : Doc) : FS :=
  { s with db := s.db.filter (fun x => ¬ x.id == d.id),
           trace := s.trace ++ [Event.deleteDoc d.id] }

/-- `put_attachment(doc, bytes, "dblock", ...)`: replace the whole `dblock`
attachment on the document with the given id. -/
def db_put_dblock (s : FS) (i : String) (b : List Nat) : FS :=
  { s with db := s.db.map
             (fun x => if x.id == i then { x with dblock := some b } else x),
           trace := s.trace ++ [Event.putAttach i "dblock"] }

/-- `put_attachment(doc, link, "symlink", ...)`. -/
def db_put_symlink (s : FS) (i : String) (link : String) : FS :=
  { s with db := s.db.map
             (fun x => if x.id == i then { x with symlink := some link } else x),
           trace := s.trace ++ [Event.putAttach i "symlink"] }

/-- `put_attachment(doc, json, "dentry.json", ...)`. -/
def db_put_dentry_att (s : FS) (i : String) (den : List (String × String)) : FS :=
  { s with db := s.db.map
             (fun x => if x.id == i then { x with dentry := some den } else x),
           trace := s.trace ++ [Event.putAttach i "dentry.json"] }

/-- `CouchFS._get_inode`: consult the open-handle table first; on a miss,
query the `by_path` view and take the first row, or `none` if no row. -/
def get_inode (s : FS) (path : String) : Option Doc :=
  match cacheLookup s.inodes path with
  | some (d, _) => some d
  | none => s.db.find? (fun x => x.inode.path == path)

/-- `CouchFS._create_inode`: build the inode record with one `_now()` for
both timestamps, `nlink` 2 when `mode & S_IFDIR` is non-zero else 1
(`S_IFDIR = 0o040000 = 16384`), pin the id when given (root only) else take
a store-assigned fresh id, and save the document. -/
def create_inode (s : FS) (path : String) (mode : Nat) (oid : Option String) :
    Doc × FS :=
  let (now, s1) := tick s
  let (i, s2) :=
    match oid with
    | some i => (i, s1)
    | none => ("doc" ++ toString s1.nextId, { s1 with nextId := s1.nextId + 1 })
  let d : Doc :=
    { id := i,
      inode :=
        { path := path, mode := mode,
          nlink := if mode &&& 16384 != 0 then 2 else 1,
          ctime := now, mtime := now } }
  (d, db_save s2 d)

/-- `CouchFS._get_dblock`: fetch the `dblock` attachment of the document
with this id; an absent attachment or absent document reads as `""`. -/
def get_dblock (s : FS) (d : Doc) : List Nat :=
  match db_find s.db d.id with
  | some x => x.dblock.getD []
  | none => []

/-- `CouchFS._put_dblock`: replace the whole `dblock` attachment. The
timestamp update `_update_inode_timestamp` is commented out in the source,
so no timestamp is touched here. -/
def put_dblock (s : FS) (d : Doc) (b : List Nat) : FS :=
  db_put_dblock s d.id b

/-- `CouchFS._get_symlink`: the `symlink` attachment, `""` when absent. -/
def get_symlink (s : FS) (d : Doc) : String :=
  match db_find s.db d.id with
  | some x => x.symlink.getD ""
  | none => ""

/-- `CouchFS._get_dentry`: the parsed `dentry.json` attachment; `none`
models the exception `json.load` raises when the attachment (or the
document, or the inode argument itself) is missing. -/
def get_dentry (s : FS) (d : Doc) : Option (List (String × String)) :=
  match db_find s.db d.id with
  | some x => x.dentry
  | none => none

/-- `CouchFS._update_inode_timestamp`: re-fetch the document by id, set its
`mtime` to `_now()` and save; `none` models the exception when the id is
gone from the store. -/
def update_inode_timestamp (s : FS) (d : Doc) : Option FS :=
  match db_find s.db d.id with
  | none => none
  | some x =>
    let (now, s1) := tick s
    some (db_save s1 { x with inode := { x.inode with mtime := now } })

/-- `CouchFS._put_dentry`: serialize and write the `dentry.json`
attachment, then advance the owning document's `mtime`. -/
def put_dentry (s : FS) (d : Doc) (den : List (String × String)) : Option FS :=
  update_inode_timestamp (db_put_dentry_att s d.id den) d

/-- `CouchFS._add_dentry`: resolve the parent directory of `path`, insert
`basename ↦ child id` into its entry map, persist, return the parent. -/
def add_dentry (s : FS) (path : String) (child : Doc) : Option (Doc × FS) :=
  match get_inode s (py_split path).1 with
  | none => none
  | some par =>
    match get_dentry s par with
    | none => none
    | some den =>
      (put_dentry s par (assocSet den (py_split path).2 child.id)).map
        (fun s' => (par, s'))

/-- `CouchFS._del_dentry`: resolve the parent directory of `path`, delete
the `basename` key from its entry map, persist, return the parent. -/
def del_dentry (s : FS) (path : String) : Option (Doc × FS) :=
  match get_inode s (py_split path).1 with
  | none => none
  | some par =>
    match get_dentry s par with
    | none => none
    | some den =>
      match assocDel den (py_split path).2 with
      | none => none
      | some den' => (put_dentry s par den').map (fun s' => (par, s'))

/-- `CouchFS.readdir`: no existence check; on an absent path the body
dereferences `None` inside `_get_dentry` and raises (the surrounding
fault wrapper never runs the generator body, so no errno is produced). -/
def readdir (s : FS) (path : String) : FsResult (List String) × FS :=
  match get_inode s path with
  | none => (FsResult.exn, s)
  | some d =>
    match get_dentry s d with
    | none => (FsResult.exn, s)
    | some den => (FsResult.ok (den.map Prod.fst), s)

/-- `CouchFS.mknod`: fail with `EEXIST` when the path resolves; otherwise
create the inode document, then add the parent directory entry. -/
def mknod (s : FS) (path : String) (mode : Nat) : FsResult Unit × FS :=
  if (get_inode s path).isSome then (FsResult.err Errno.EEXIST, s)
  else
    match add_dentry (create_inode s path mode none).2 path
        (create_inode s path mode none).1 with
    | none => (FsResult.exn, (create_inode s path mode none).2)
    | some pr => (FsResult.ok (), pr.2)

/-- `CouchFS.unlink`: `ENOENT` when absent; otherwise delete the inode
document first, then remove the parent's directory entry. -/
def unlink (s : FS) (path : String) : FsResult Unit × FS :=
  match get_inode s path with
  | none => (FsResult.err Errno.ENOENT, s)
  | some d =>
    let s1 := db_delete s d
    match del_dentry s1 path with
    | none => (FsResult.exn, s1)
    | some (_, s2) => (FsResult.ok (), s2)

/-- `CouchFS.rmdir`: `ENOENT` when absent; `ENOTEMPTY` when the entry map
has more than two entries; otherwise delete the inode document, then
remove the parent's directory entry. -/
def rmdir (s : FS) (path : String) : FsResult Unit × FS :=
  match get_inode s path with
  | none => (FsResult.err Errno.ENOENT, s)
  | some d =>
    match get_dentry s d with
    | none => (FsResult.exn, s)
    | some den =>
      if den.length > 2 then (FsResult.err Errno.ENOTEMPTY, s)
      else
        let s1 := db_delete s d
        match del_dentry s1 path with
        | none => (FsResult.exn, s1)
        | some (_, s2) => (FsResult.ok (), s2)

/-- `CouchFS.open`: `ENOENT` when the path does not resolve; otherwise
insert `[inode, 0]` into the handle table on first open and increment the
stored reference count in place. -/
def fsOpen (s : FS) (path : String) : FsResult Unit × FS :=
  match get_inode s path with
  | none => (FsResult.err Errno.ENOENT, s)
  | some d =>
    let c :=
      match cacheLookup s.inodes path with
      | none => s.inodes ++ [(path, d, 0)]
      | some _ => s.inodes
    (FsResult.ok (), { s with inodes := cacheBump c path })

/-- `CouchFS.release`: read the cached pair, decrement a local copy of the
count (the table itself is not written back), and delete the table entry
only when that local copy is `≤ 0`. -/
def release (s : FS) (path : String) : FsResult Unit × FS :=
  match cacheLookup s.inodes path with
  | none => (FsResult.exn, s)
  | some (_, refs) =>
    if refs - 1 ≤ 0 then
      (FsResult.ok (), { s with inodes := cacheDel s.inodes path })
    else (FsResult.ok (), s)

/-- `CouchFS.read`: take the cached inode, fetch the `dblock` attachment
and return the Python slice `dblock[offset : offset + size]`. -/
def read (s : FS) (path : String) (size offset : Nat) :
    FsResult (List Nat) × FS :=
  match cacheLookup s.inodes path with
  | none => (FsResult.exn, s)
  | some (d, _) =>
    (FsResult.ok (((get_dblock s d).drop offset).take size), s)

/-- `CouchFS.write`: splice the buffer over `[offset, offset+len)` of the
current `dblock` (`dblock[:offset] + buf + dblock[offset+len:]`), put the
whole result back, return the buffer length. -/
def write (s : FS) (path : String) (buf : List Nat) (offset : Nat) :
    FsResult Nat × FS :=
  match cacheLookup s.inodes path with
  | none => (FsResult.exn, s)
  | some (d, _) =>
    let dblock := get_dblock s d
    let dblock' := dblock.take offset ++ buf ++ dblock.drop (offset + buf.length)
    (FsResult.ok buf.length, put_dblock s d dblock')

/-- `CouchFS.truncate`: slice the current `dblock` to `length` and put it
back (no timestamp update, as in `_put_dblock`). -/
def truncate (s : FS) (path : String) (length : Nat) : FsResult Unit × FS :=
  match cacheLookup s.inodes path with
  | none => (FsResult.exn, s)
  | some (d, _) =>
    (FsResult.ok (), put_dblock s d ((get_dblock s d).take length))

/-- `CouchFS.mkdir`: `EEXIST` when present; otherwise create the inode with
`S_IFDIR | mode`, add the parent entry, then write the child's own
`{".": self, "..": parent}` entry map. -/
def mkdir (s : FS) (path : String) (mode : Nat) : FsResult Unit × FS :=
  if (get_inode s path).isSome then (FsResult.err Errno.EEXIST, s)
  else
    match add_dentry (create_inode s path (16384 ||| mode) none).2 path
        (create_inode s path (16384 ||| mode) none).1 with
    | none => (FsResult.exn, (create_inode s path (16384 ||| mode) none).2)
    | some pr =>
      match put_dentry pr.2 (create_inode s path (16384 ||| mode) none).1
          [(".", ((create_inode s path (16384 ||| mode) none).1).id),
           ("..", pr.1.id)] with
      | none => (FsResult.exn, pr.2)
      | some s3 => (FsResult.ok (), s3)

/-- `CouchFS.readlink`: `ENOENT` when absent, else the `symlink`
attachment. -/
def readlink (s : FS) (path : String) : FsResult String × FS :=
  match get_inode s path with
  | none => (FsResult.err Errno.ENOENT, s)
  | some d => (FsResult.ok (get_symlink s d), s)

/-- `CouchFS.symlink`: `EEXIST` when present; otherwise create the inode
with mode `S_IFLNK | 0777 = 41471`, write the target attachment, then add
the parent entry. -/
def symlink (s : FS) (source path : String) : FsResult Unit × FS :=
  if (get_inode s path).isSome then (FsResult.err Errno.EEXIST, s)
  else
    match add_dentry
        (db_put_symlink (create_inode s path 41471 none).2
          ((create_inode s path 41471 none).1).id source)
        path (create_inode s path 41471 none).1 with
    | none => (FsResult.exn,
        db_put_symlink (create_inode s path 41471 none).2
          ((create_inode s path 41471 none).1).id source)
    | some pr => (FsResult.ok (), pr.2)

/-! The `exc_handle` decorator. Its wrapped function is modelled by the
outcomes of its (at most two) invocations. -/

/-- Outcome of invoking the wrapped function once: normal return, a raised
`socket.timeout`, or any other raised exception. -/
inductive CallOutcome (α : Type) where
  | ok (v : α)
  | timeout
  | exn
deriving DecidableEq, Repr

/-- What the wrapper hands back to FUSE: the wrapped function's return
value, the translated `-errno.EINVAL`, or an exception that escaped the
wrapper (an exception raised inside the `except socket.timeout` arm is not
caught by the following bare `except`). -/
inductive HandlerResult (α : Type) where
  | ret (v : α)
  | einval
  | raised
deriving DecidableEq, Repr

/-- Observable run of one wrapped call: the produced result, how many
times the wrapped function was invoked, and whether `logger.error` ran. -/
structure HandlerRun (α : Type) where
  result : HandlerResult α
  calls : Nat
  logged : Bool
deriving DecidableEq, Repr

/-- The `exc_handle` decorator: try the call; on `socket.timeout` log and
call again once (a failure of the retry escapes uncaught); on any other
exception log the traceback and return `-errno.EINVAL`. -/
def exc_handle {α : Type} (first second : CallOutcome α) : HandlerRun α :=
  match first with
  | CallOutcome.ok v => ⟨HandlerResult.ret v, 1, false⟩
  | CallOutcome.timeout =>
    match second with
    | CallOutcome.ok v => ⟨HandlerResult.ret v, 2, true⟩
    | CallOutcome.timeout => ⟨HandlerResult.raised, 2, true⟩
    | CallOutcome.exn => ⟨HandlerResult.raised, 2, true⟩
  | CallOutcome.exn => ⟨HandlerResult.einval, 1, true⟩

/-! Concrete fixture states used by counterexamples and witnesses. -/

/-- Root directory document, entry map `{., .., f}`. -/
def rootDoc : Doc :=
  { id := "root_inode",
    inode := { path := "/", mode := 16384 + 365, nlink := 2, ctime := 0, mtime := 0 },
    dentry := some [(".", "root_inode"), ("..", "root_inode"), ("f", "f1")] }

/-- An empty regular file `/f` (mode `0o100644`, empty `dblock`). -/
def fileDoc : Doc :=
  { id := "f1",
    inode := { path := "/f", mode := 33188, nlink := 1, ctime := 0, mtime := 0 },
    dblock := some [] }

/-- A database with the root and the empty file `/f`; nothing open yet. -/
def baseState : FS :=
  { db := [rootDoc, fileDoc], inodes := [], nextId := 0, clock := 99, trace := [] }

/-- `baseState` after one successful `open("/f")`. -/
def openState : FS := (fsOpen baseState "/f").2

/-- An empty directory `/d` (entry map exactly `{., ..}`). -/
def dirDoc : Doc :=
  { id := "d1",
    inode := { path := "/d", mode := 16384 + 493, nlink := 2, ctime := 0, mtime := 0 },
    dentry := some [(".", "d1"), ("..", "root_inode")] }

/-- Root directory document whose entry map is `{., .., d}`. -/
def rootDocD : Doc :=
  { id := "root_inode",
    inode := { path := "/", mode := 16384 + 365, nlink := 2, ctime := 0, mtime := 0 },
    dentry := some [(".", "root_inode"), ("..", "root_inode"), ("d", "d1")] }

/-- A database with the root and the empty directory `/d`. -/
def dirState : FS :=
  { db := [rootDocD, dirDoc], inodes := [], nextId := 0, clock := 99, trace := [] }

/-! Helper lemmas. -/

/-- Lookup by id commutes with mapping an id-preserving transformation
over the database. -/
theorem db_find_map (db : List Doc) (i : String) (f : Doc → Doc)
    (hf : ∀ x, (f x).id = x.id) :
    db_find (db.map f) i = (db_find db i).map f := by
  unfold db_find
  rw [List.find?_map]
  have hp : ((fun x : Doc => x.id == i) ∘ f) = (fun x : Doc => x.id == i) := by
    funext x
    simp [Function.comp, hf]
  rw [hp]

/-- `db_save` appends exactly one `saveDoc` event. -/
theorem db_save_trace (s : FS) (d : Doc) :
    (db_save s d).trace = s.trace ++ [Event.saveDoc d.id] := by
  unfold db_save
  split <;> rfl

/-- `_update_inode_timestamp` only appends to the write trace. -/
theorem update_inode_timestamp_trace (s : FS) (d : Doc) (s' : FS)
    (h : update_inode_timestamp s d = some s') :
    ∃ tl, s'.trace = s.trace ++ tl := by
  unfold update_inode_timestamp at h
  cases hf : db_find s.db d.id with
  | none => rw [hf] at h; cases h
  | some x =>
    rw [hf] at h
    injection h with h
    refine ⟨[Event.saveDoc x.id], ?_⟩
    rw [← h, db_save_trace]

/-- `_put_dentry` only appends to the write trace. -/
theorem put_dentry_trace (s : FS) (d : Doc) (den : List (String × String))
    (s' : FS) (h : put_dentry s d den = some s') :
    ∃ tl, s'.trace = s.trace ++ tl := by
  unfold put_dentry at h
  obtain ⟨tl, htl⟩ := update_inode_timestamp_trace _ _ _ h
  refine ⟨[Event.putAttach d.id "dentry.json"] ++ tl, ?_⟩
  rw [htl]
  simp [db_put_dentry_att]

/-- `_del_dentry` only appends to the write trace. -/
theorem del_dentry_trace (s : FS) (path : String) (pr : Doc × FS)
    (h : del_dentry s path = some pr) :
    ∃ tl, pr.2.trace = s.trace ++ tl := by
  unfold del_dentry at h
  split at h
  · cases h
  · split at h
    · cases h
    · split at h
      · cases h
      · rename_i xo par hpar xd den hden xa den' hdel
        cases hpd : put_dentry s par den' with
        | none => simp [hpd] at h
        | some s2 =>
          simp only [hpd, Option.map_some'] at h
          injection h with h
          obtain ⟨tl, htl⟩ := put_dentry_trace _ _ _ _ hpd
          exact ⟨tl, by rw [← h]; exact htl⟩

/-- `_add_dentry` only appends to the write trace. -/
theorem add_dentry_trace (s : FS) (path : String) (child : Doc) (pr : Doc × FS)
    (h : add_dentry s path child = some pr) :
    ∃ tl, pr.2.trace = s.trace ++ tl := by
  unfold add_dentry at h
  split at h
  · cases h
  · split at h
    · cases h
    · rename_i xo par hpar xd den hden
      cases hpd : put_dentry s par (assocSet den (py_split path).2 child.id) with
      | none => simp [hpd] at h
      | some s2 =>
        simp only [hpd, Option.map_some'] at h
        injection h with h
        obtain ⟨tl, htl⟩ := put_dentry_trace _ _ _ _ hpd
        exact ⟨tl, by rw [← h]; exact htl⟩

/-- The document found by `db_find` satisfies the lookup predicate. -/
theorem db_find_id (db : List Doc) (i : String) (x : Doc)
    (hx : db_find db i = some x) : (x.id == i) = true := by
  unfold db_find at hx
  exact List.find?_some (p := fun y => y.id == i) (a := x) hx

/-- Reading the `dblock` attachment back after `_put_dblock` on a document
that is present in the store yields exactly the bytes just written. -/
theorem get_dblock_put_dblock (s : FS) (d : Doc) (b : List Nat)
    (hdoc : (db_find s.db d.id).isSome) :
    get_dblock (put_dblock s d b) d = b := by
  obtain ⟨x, hx⟩ := Option.isSome_iff_exists.mp hdoc
  have hpx : (x.id == d.id) = true := db_find_id s.db d.id x hx
  have hmap := db_find_map s.db d.id
    (fun y => if y.id == d.id then { y with dblock := some b } else y)
    (fun y => by by_cases hyy : y.id == d.id <;> simp [hyy])
  have hdb : (put_dblock s d b).db =
      s.db.map (fun y => if y.id == d.id then { y with dblock := some b } else y) :=
    rfl
  unfold get_dblock
  rw [hdb, hmap, hx]
  have hxe : x.id = d.id := by simpa using hpx
  simp [hxe]

/-- `_put_dblock` changes no stored `inode` record: lookup by any id
yields a document with the same `inode` field as before. -/
theorem put_dblock_inode (s : FS) (d : Doc) (b : List Nat) (i : String) :
    (db_find (put_dblock s d b).db i).map (fun x => x.inode) =
      (db_find s.db i).map (fun x => x.inode) := by
  have hdb : (put_dblock s d b).db =
      s.db.map (fun y => if y.id == d.id then { y with dblock := some b } else y) :=
    rfl
  rw [hdb, db_find_map s.db i _
    (fun y => by by_cases hyy : y.id == d.id <;> simp [hyy])]
  cases db_find s.db i with
  | none => rfl
  | some x =>
    simp only [Option.map_some']
    congr 1
    split <;> rfl

/-- `_create_inode` appends exactly the save of the created document. -/
theorem create_inode_trace (s : FS) (path : String) (mode : Nat)
    (oid : Option String) :
    ((create_inode s path mode oid).2).trace =
      s.trace ++ [Event.saveDoc ((create_inode s path mode oid).1).id] := by
  cases oid <;> exact db_save_trace _ _

/-- `unlink` on a resolvable path performs the child-document delete as
its first store write. -/
theorem unlink_delete_first (s : FS) (path : String) (d : Doc)
    (hd : get_inode s path = some d) (hemp : s.trace = []) :
    ∃ rest, (unlink s path).2.trace = Event.deleteDoc d.id :: rest := by
  cases hdd : del_dentry (db_delete s d) path with
  | none =>
    refine ⟨[], ?_⟩
    have hs : (unlink s path).2 = db_delete s d := by
      simp [unlink, hd, hdd]
    rw [hs]
    simp [db_delete, hemp]
  | some pr =>
    obtain ⟨a, s2⟩ := pr
    obtain ⟨tl, htl⟩ := del_dentry_trace _ _ _ hdd
    refine ⟨tl, ?_⟩
    have hs : (unlink s path).2 = s2 := by
      simp [unlink, hd, hdd]
    rw [hs]
    have h2 : s2.trace = (db_delete s d).trace ++ tl := htl
    rw [h2]
    simp [db_delete, hemp]

/-- `rmdir` on a resolvable, sufficiently small directory performs the
child-document delete as its first store write. -/
theorem rmdir_delete_first (s : FS) (path : String) (d : Doc)
    (den : List (String × String))
    (hd : get_inode s path = some d) (hden : get_dentry s d = some den)
    (hlen : ¬ den.length > 2) (hemp : s.trace = []) :
    ∃ rest, (rmdir s path).2.trace = Event.deleteDoc d.id :: rest := by
  cases hdd : del_dentry (db_delete s d) path with
  | none =>
    refine ⟨[], ?_⟩
    have hs : (rmdir s path).2 = db_delete s d := by
      simp [rmdir, hd, hden, hlen, hdd]
    rw [hs]
    simp [db_delete, hemp]
  | some pr =>
    obtain ⟨a, s2⟩ := pr
    obtain ⟨tl, htl⟩ := del_dentry_trace _ _ _ hdd
    refine ⟨tl, ?_⟩
    have hs : (rmdir s path).2 = s2 := by
      simp [rmdir, hd, hden, hlen, hdd]
    rw [hs]
    have h2 : s2.trace = (db_delete s d).trace ++ tl := htl
    rw [h2]
    simp [db_delete, hemp]

/-- `mknod` on an absent path performs the child-document save as its
first store write. -/
theorem mknod_save_first (s : FS) (path : String) (mode : Nat)
    (hnone : get_inode s path = none) (hemp : s.trace = []) :
    ∃ rest, (mknod s path mode).2.trace =
      Event.saveDoc ((create_inode s path mode none).1).id :: rest := by
  have hni : (get_inode s path).isSome = false := by rw [hnone]; rfl
  cases had : add_dentry (create_inode s path mode none).2 path
      (create_inode s path mode none).1 with
  | none =>
    refine ⟨[], ?_⟩
    have hs : (mknod s path mode).2 = (create_inode s path mode none).2 := by
      simp [mknod, hni, had]
    rw [hs, create_inode_trace, hemp]
    rfl
  | some pr =>
    obtain ⟨tl, htl⟩ := add_dentry_trace _ _ _ _ had
    refine ⟨tl, ?_⟩
    have hs : (mknod s path mode).2 = pr.2 := by
      simp [mknod, hni, had]
    rw [hs, htl, create_inode_trace, hemp]
    rfl

/-- `mkdir` on an absent path performs the child-document save as its
first store write. -/
theorem mkdir_save_first (s : FS) (path : String) (mode : Nat)
    (hnone : get_inode s path = none) (hemp : s.trace = []) :
    ∃ rest, (mkdir s path mode).2.trace =
      Event.saveDoc ((create_inode s path (16384 ||| mode) none).1).id :: rest := by
  have hni : (get_inode s path).isSome = false := by rw [hnone]; rfl
  cases had : add_dentry (create_inode s path (16384 ||| mode) none).2 path
      (create_inode s path (16384 ||| mode) none).1 with
  | none =>
    refine ⟨[], ?_⟩
    have hs : (mkdir s path mode).2 =
        (create_inode s path (16384 ||| mode) none).2 := by
      simp [mkdir, hni, had]
    rw [hs, create_inode_trace, hemp]
    rfl
  | some pr =>
    obtain ⟨tl, htl⟩ := add_dentry_trace _ _ _ _ had
    cases hpd : put_dentry pr.2 (create_inode s path (16384 ||| mode) none).1
        [(".", ((create_inode s path (16384 ||| mode) none).1).id),
         ("..", pr.1.id)] with
    | none =>
      refine ⟨tl, ?_⟩
      have hs : (mkdir s path mode).2 = pr.2 := by
        simp [mkdir, hni, had, hpd]
      rw [hs, htl, create_inode_trace, hemp]
      rfl
    | some s3 =>
      obtain ⟨tl2, htl2⟩ := put_dentry_trace _ _ _ _ hpd
      refine ⟨tl ++ tl2, ?_⟩
      have hs : (mkdir s path mode).2 = s3 := by
        simp [mkdir, hni, had, hpd]
      rw [hs, htl2, htl, create_inode_trace, hemp]
      simp

/-- `symlink` on an absent path performs the child-document save as its
first store write. -/
theorem symlink_save_first (s : FS) (source path : String)
    (hnone : get_inode s path = none) (hemp : s.trace = []) :
    ∃ rest, (symlink s source path).2.trace =
      Event.saveDoc ((create_inode s path 41471 none).1).id :: rest := by
  have hni : (get_inode s path).isSome = false := by rw [hnone]; rfl
  have hsl : (db_put_symlink (create_inode s path 41471 none).2
      ((create_inode s path 41471 none).1).id source).trace =
      ((create_inode s path 41471 none).2).trace ++
        [Event.putAttach ((create_inode s path 41471 none).1).id "symlink"] := rfl
  cases had : add_dentry
      (db_put_symlink (create_inode s path 41471 none).2
        ((create_inode s path 41471 none).1).id source)
      path (create_inode s path 41471 none).1 with
  | none =>
    refine ⟨[Event.putAttach ((create_inode s path 41471 none).1).id "symlink"], ?_⟩
    have hs : (symlink s source path).2 =
        db_put_symlink (create_inode s path 41471 none).2
          ((create_inode s path 41471 none).1).id source := by
      simp [symlink, hni, had]
    rw [hs, hsl, create_inode_trace, hemp]
    rfl
  | some pr =>
    obtain ⟨tl, htl⟩ := add_dentry_trace _ _ _ _ had
    refine ⟨[Event.putAttach ((create_inode s path 41471 none).1).id "symlink"] ++ tl, ?_⟩
    have hs : (symlink s source path).2 = pr.2 := by
      simp [symlink, hni, had]
    rw [hs, htl, hsl, create_inode_trace, hemp]
    simp

/-- `_put_dentry` succeeds whenever the owning document is in the store. -/
theorem put_dentry_some (s : FS) (par : Doc) (x : Doc)
    (den' : List (String × String))
    (hx : db_find s.db par.id = some x) :
    ∃ s', put_dentry s par den' = some s' := by
  have hmap := db_find_map s.db par.id
    (fun y => if y.id == par.id then { y with dentry := some den' } else y)
    (fun y => by by_cases hyy : y.id == par.id <;> simp [hyy])
  have hdb : (db_put_dentry_att s par.id den').db =
      s.db.map (fun y => if y.id == par.id then { y with dentry := some den' } else y) :=
    rfl
  unfold put_dentry update_inode_timestamp
  rw [hdb, hmap, hx]
  exact ⟨_, rfl⟩

/-- `_del_dentry` succeeds when the parent resolves, carries an entry map
and the map holds the basename key. -/
theorem del_dentry_some (s : FS) (path : String) (par : Doc)
    (pden : List (String × String))
    (hpar : get_inode s (py_split path).1 = some par)
    (hpden : get_dentry s par = some pden)
    (hbn : pden.any (fun e => e.1 == (py_split path).2) = true) :
    ∃ pr, del_dentry s path = some pr := by
  have ha : assocDel pden (py_split path).2 =
      some (pden.filter (fun e => ¬ e.1 == (py_split path).2)) := by
    unfold assocDel
    rw [if_pos hbn]
  obtain ⟨x, hx⟩ : ∃ x, db_find s.db par.id = some x := by
    unfold get_dentry at hpden
    cases hfx : db_find s.db par.id with
    | none => rw [hfx] at hpden; cases hpden
    | some x => exact ⟨x, rfl⟩
  obtain ⟨s', hs'⟩ := put_dentry_some s par x
    (pden.filter (fun e => ¬ e.1 == (py_split path).2)) hx
  refine ⟨(par, s'), ?_⟩
  simp only [del_dentry, hpar, hpden, ha, hs', Option.map_some']

/-- A duplicate-free key list containing `.` and `..` has at most two
entries exactly when every key is `.` or `..`. -/
theorem keys_of_card (keys : List String) (hnd : keys.Nodup)
    (h1 : "." ∈ keys) (h2 : ".." ∈ keys) :
    keys.length ≤ 2 ↔ ∀ k ∈ keys, k = "." ∨ k = ".." := by
  constructor
  · intro hlen k hk
    by_contra hcon
    push_neg at hcon
    obtain ⟨hk1, hk2⟩ := hcon
    have hsub : ({".", "..", k} : Finset String) ⊆ keys.toFinset := by
      intro x hx
      rw [List.mem_toFinset]
      simp only [Finset.mem_insert, Finset.mem_singleton] at hx
      rcases hx with h | h | h
      · rw [h]; exact h1
      · rw [h]; exact h2
      · rw [h]; exact hk
    have hne1 : ("." : String) ∉ ({"..", k} : Finset String) := by
      simp only [Finset.mem_insert, Finset.mem_singleton]
      push_neg
      exact ⟨by decide, Ne.symm hk1⟩
    have hne2 : (".." : String) ∉ ({k} : Finset String) := by
      simp only [Finset.mem_singleton]
      exact Ne.symm hk2
    have hcard : ({".", "..", k} : Finset String).card = 3 := by
      rw [Finset.card_insert_of_not_mem hne1,
        Finset.card_insert_of_not_mem hne2, Finset.card_singleton]
    have hle := Finset.card_le_card hsub
    rw [List.toFinset_card_of_nodup hnd, hcard] at hle
    omega
  · intro hall
    have hsub : keys.toFinset ⊆ ({".", ".."} : Finset String) := by
      intro x hx
      rw [List.mem_toFinset] at hx
      rcases hall x hx with h | h <;> simp [h]
    have hle := Finset.card_le_card hsub
    rw [List.toFinset_card_of_nodup hnd] at hle
    have hc2 : ({".", ".."} : Finset String).card ≤ 2 :=
      le_trans (Finset.card_insert_le _ _) (by simp)
    omega

/-! Claim theorems. -/

/-- C1: with a single open of `/f`, one release does evict the handle-cache
entry, but with two opens (stored reference count 2) the entry is still in
the cache with count 2 after two releases — `release` decrements only a
local copy of the count and never writes it back, so for two or more opens
the entry survives the n-th release, contrary to the claim. -/
theorem c1_release_never_evicts :
    cacheLookup ((release (fsOpen baseState "/f").2 "/f").2).inodes "/f" = none ∧
    cacheLookup ((release (release (fsOpen (fsOpen baseState "/f").2 "/f").2
        "/f").2 "/f").2).inodes "/f" = some (fileDoc, 2) := by
  decide

/-- C2 counterexample: on the freshly created empty file `/f` (opened), a
write of the one-byte buffer `[7]` at offset 1 followed by a read of one
byte at offset 1 returns the empty buffer, not `[7]`: the splice puts the
byte at position 0 because there is no zero-fill of the gap. -/
theorem c2_counterexample :
    (read (write openState "/f" [7] 1).2 "/f" 1 1).1 = FsResult.ok [] ∧
    (read (write openState "/f" [7] 1).2 "/f" 1 1).1 ≠ FsResult.ok [7] := by
  decide

/-- C2 (amended): the write/read round trip returns exactly the written
buffer provided the write offset is at most the current content length
(for a freshly created empty file: offset 0). -/
theorem c2_roundtrip_amended (s : FS) (p : String) (buf : List Nat) (o : Nat)
    (d : Doc) (r : Int)
    (hc : cacheLookup s.inodes p = some (d, r))
    (hdoc : (db_find s.db d.id).isSome)
    (ho : o ≤ (get_dblock s d).length) :
    (read (write s p buf o).2 p buf.length o).1 = FsResult.ok buf := by
  obtain ⟨x, hx⟩ := Option.isSome_iff_exists.mp hdoc
  have hw : (write s p buf o).2 =
      put_dblock s d ((get_dblock s d).take o ++ buf ++
        (get_dblock s d).drop (o + buf.length)) := by
    unfold write
    rw [hc]
  have hinodes : ((write s p buf o).2).inodes = s.inodes := by
    rw [hw]
    rfl
  have hget : get_dblock ((write s p buf o).2) d =
      (get_dblock s d).take o ++ buf ++ (get_dblock s d).drop (o + buf.length) := by
    rw [hw]
    exact get_dblock_put_dblock s d _ hdoc
  have hread : (read (write s p buf o).2 p buf.length o).1 =
      FsResult.ok (((get_dblock ((write s p buf o).2) d).drop o).take buf.length) := by
    unfold read
    rw [hinodes, hc]
  rw [hread, hget]
  have hlen : ((get_dblock s d).take o).length = o := by
    rw [List.length_take]
    omega
  rw [List.append_assoc, List.drop_left' hlen, List.take_left' rfl]

/-- C2 witness: writing `[1, 2]` at offset 0 to the opened empty file `/f`
and reading two bytes back at offset 0 yields `[1, 2]`. -/
theorem c2_roundtrip_amended_witness :
    (read (write openState "/f" [1, 2] 0).2 "/f" 2 0).1 = FsResult.ok [1, 2] := by
  exact c2_roundtrip_amended openState "/f" [1, 2] 0 fileDoc 1
    (by decide) (by decide) (by decide)

/-- C3: the `exc_handle` wrapper invokes the wrapped call a second time
exactly when the first invocation raises `socket.timeout` (retried exactly
once), and on any other failure of the first invocation it logs the
failure and returns `-errno.EINVAL`. -/
theorem c3_exc_handle_policy {α : Type} (first second : CallOutcome α) :
    (first = CallOutcome.timeout → (exc_handle first second).calls = 2) ∧
    ((∀ v, first ≠ CallOutcome.ok v) → first ≠ CallOutcome.timeout →
      (exc_handle first second).result = HandlerResult.einval ∧
      (exc_handle first second).logged = true ∧
      (exc_handle first second).calls = 1) := by
  cases first <;> cases second <;> simp [exc_handle]

/-- C3 witness: a first-call timeout leads to exactly two invocations, and
a first-call non-timeout exception yields the logged EINVAL translation. -/
theorem c3_exc_handle_policy_witness :
    (exc_handle (CallOutcome.timeout : CallOutcome Nat) (CallOutcome.ok 5)).calls = 2 ∧
    (exc_handle (CallOutcome.exn : CallOutcome Nat) (CallOutcome.ok 5)).result =
      HandlerResult.einval := by
  constructor
  · exact (c3_exc_handle_policy CallOutcome.timeout (CallOutcome.ok 5)).1 rfl
  · exact ((c3_exc_handle_policy CallOutcome.exn (CallOutcome.ok 5)).2
      (by intro v h; cases h) (by intro h; cases h)).1

/-- C5 counterexample: deleting the file `/f` emits the store writes in the
order child-document delete, then parent `dentry.json` attachment write
(then the parent timestamp save): the removal of the child's name from the
parent map happens strictly after the child document is removed, not
before as claimed. -/
theorem c5_counterexample :
    (unlink baseState "/f").2.trace =
      [Event.deleteDoc "f1", Event.putAttach "root_inode" "dentry.json",
        Event.saveDoc "root_inode"] ∧
    ((unlink baseState "/f").2.trace).indexOf (Event.deleteDoc "f1") <
      ((unlink baseState "/f").2.trace).indexOf
        (Event.putAttach "root_inode" "dentry.json") := by
  decide

/-- C6 counterexample: a successful write (and a truncate) of the opened
file `/f` leaves the persisted `mtime` at its old value 0 even though the
current clock is 99: the timestamp update in `_put_dblock` is commented
out, so content changes do not update `mtime`. -/
theorem c6_counterexample :
    (write openState "/f" [1, 2, 3] 0).1 = FsResult.ok 3 ∧
    (db_find (write openState "/f" [1, 2, 3] 0).2.db "f1").map
      (fun x => x.inode.mtime) = some 0 ∧
    (truncate openState "/f" 0).1 = FsResult.ok () ∧
    (db_find (truncate openState "/f" 0).2.db "f1").map
      (fun x => x.inode.mtime) = some 0 ∧
    openState.clock = 99 := by
  decide

/-- C7: `readdir` on an absent path raises an exception (the `None` inode
is dereferenced inside `_get_dentry`) instead of returning the "not found"
error `-errno.ENOENT` that every sibling operation returns and that the
specification requires. -/
theorem c7_readdir_missing_raises :
    (readdir baseState "/missing").1 = FsResult.exn ∧
    (readdir baseState "/missing").1 ≠ FsResult.err Errno.ENOENT := by
  decide

/-- C8: each of `mknod`, `mkdir` and `symlink` on a path whose inode
already resolves returns `-errno.EEXIST` — whatever the type of the
existing node — and leaves the whole state (in particular the database)
unchanged: no new document is created. -/
theorem c8_create_on_existing_fails (s : FS) (path src : String) (mode : Nat)
    (h : (get_inode s path).isSome) :
    mknod s path mode = (FsResult.err Errno.EEXIST, s) ∧
    mkdir s path mode = (FsResult.err Errno.EEXIST, s) ∧
    symlink s src path = (FsResult.err Errno.EEXIST, s) := by
  refine ⟨?_, ?_, ?_⟩ <;> simp [mknod, mkdir, symlink, h]

/-- C8 witness: creating over the existing file `/f` fails with EEXIST and
leaves the state untouched. -/
theorem c8_create_on_existing_fails_witness :
    mknod baseState "/f" 33188 = (FsResult.err Errno.EEXIST, baseState) := by
  exact (c8_create_on_existing_fails baseState "/f" "/x" 33188 (by decide)).1

/-- C9 counterexample: for mode `0o140000 = 49152` (a socket: its
file-type bits `mode & 0o170000` are not the directory type `0o040000`),
`_create_inode` still sets `nlink` to 2 because the test `mode & S_IFDIR`
is a bitwise intersection, not a file-type comparison — refuting "1 for
every non-directory mode". -/
theorem c9_counterexample :
    ((create_inode baseState "/sock" 49152 none).1).inode.nlink = 2 ∧
    49152 &&& 61440 ≠ 16384 := by
  decide

/-- C9 (amended): `_create_inode` sets `nlink` to 2 exactly when the mode
has the `S_IFDIR` bit set (`mode & 0o040000 ≠ 0`, which also holds for
block-device and socket file types) and to 1 otherwise, and sets both
`ctime` and `mtime` to the same current timestamp. -/
theorem c9_nlink_amended (s : FS) (path : String) (mode : Nat)
    (oid : Option String) :
    (((create_inode s path mode oid).1).inode.nlink = 2 ↔ mode &&& 16384 ≠ 0) ∧
    (((create_inode s path mode oid).1).inode.nlink = 1 ↔ mode &&& 16384 = 0) ∧
    ((create_inode s path mode oid).1).inode.ctime =
      ((create_inode s path mode oid).1).inode.mtime ∧
    ((create_inode s path mode oid).1).inode.ctime = s.clock := by
  cases oid <;> by_cases h : mode &&& 16384 = 0 <;>
    simp [create_inode, tick, h]

/-- C10: `read` on an open path leaves the entire state unchanged (no
document, attachment or handle-cache mutation) and returns a contiguous
slice of the file's `dblock` content, clipped to the content length. -/
theorem c10_read_pure (s : FS) (p : String) (size offset : Nat)
    (d : Doc) (r : Int)
    (hc : cacheLookup s.inodes p = some (d, r)) :
    (read s p size offset).2 = s ∧
    ∃ bytes, (read s p size offset).1 = FsResult.ok bytes ∧
      bytes.length = min size ((get_dblock s d).length - offset) ∧
      bytes <:+: get_dblock s d := by
  have hr : read s p size offset =
      (FsResult.ok (((get_dblock s d).drop offset).take size), s) := by
    unfold read
    rw [hc]
  refine ⟨by rw [hr], ((get_dblock s d).drop offset).take size, by rw [hr], ?_, ?_⟩
  · simp [List.length_take, List.length_drop]
  · refine ⟨(get_dblock s d).take offset,
      ((get_dblock s d).drop offset).drop size, ?_⟩
    rw [List.append_assoc, List.take_append_drop, List.take_append_drop]

/-- C10 witness: reading 4 bytes at offset 0 of the opened file `/f`
leaves the state exactly as it was. -/
theorem c10_read_pure_witness :
    (read openState "/f" 4 0).2 = openState := by
  exact (c10_read_pure openState "/f" 4 0 fileDoc 1 (by decide)).1

/-- C5 (amended): in the delete operations (`unlink`, `rmdir`) the CHILD
inode document delete is the first store write and the parent entry-map
removal follows it — the reverse of the claimed order; in the create
operations (`mknod`, `mkdir`, `symlink`) the child document save is the
first store write and the parent entry insertion follows, as claimed. -/
theorem c5_order_amended (s : FS) (path source : String) (mode : Nat)
    (d : Doc) (den : List (String × String)) (hemp : s.trace = []) :
    (get_inode s path = some d →
      ∃ rest, (unlink s path).2.trace = Event.deleteDoc d.id :: rest) ∧
    (get_inode s path = some d → get_dentry s d = some den →
      ¬ den.length > 2 →
      ∃ rest, (rmdir s path).2.trace = Event.deleteDoc d.id :: rest) ∧
    (get_inode s path = none →
      (∃ rest, (mknod s path mode).2.trace =
        Event.saveDoc ((create_inode s path mode none).1).id :: rest) ∧
      (∃ rest, (mkdir s path mode).2.trace =
        Event.saveDoc ((create_inode s path (16384 ||| mode) none).1).id :: rest) ∧
      (∃ rest, (symlink s source path).2.trace =
        Event.saveDoc ((create_inode s path 41471 none).1).id :: rest)) := by
  exact ⟨fun hd => unlink_delete_first s path d hd hemp,
    fun hd hden hlen => rmdir_delete_first s path d den hd hden hlen hemp,
    fun hn => ⟨mknod_save_first s path mode hn hemp,
      mkdir_save_first s path mode hn hemp,
      symlink_save_first s source path hn hemp⟩⟩

/-- C5 witness: deleting `/f` from the fixture state emits the child
document delete as the very first store write. -/
theorem c5_order_amended_witness :
    ∃ rest, (unlink baseState "/f").2.trace =
      Event.deleteDoc fileDoc.id :: rest := by
  exact (c5_order_amended baseState "/f" "/t" 33188 fileDoc [] rfl).1 (by decide)

/-- C6 (amended): a successful write (or truncate) on an open path
persists the new content but leaves every stored inode record — in
particular the file's persisted `mtime` — unchanged, and never reads the
clock: content changes do not update timestamps (the timestamp-update
call in `_put_dblock` is commented out in the source). -/
theorem c6_mtime_unchanged (s : FS) (p : String) (buf : List Nat)
    (o len : Nat) (d : Doc) (r : Int)
    (hc : cacheLookup s.inodes p = some (d, r)) :
    (∀ i, (db_find (write s p buf o).2.db i).map (fun x => x.inode.mtime) =
        (db_find s.db i).map (fun x => x.inode.mtime)) ∧
    (∀ i, (db_find (truncate s p len).2.db i).map (fun x => x.inode.mtime) =
        (db_find s.db i).map (fun x => x.inode.mtime)) ∧
    (write s p buf o).2.clock = s.clock ∧
    (truncate s p len).2.clock = s.clock := by
  have hw : (write s p buf o).2 = put_dblock s d
      ((get_dblock s d).take o ++ buf ++
        (get_dblock s d).drop (o + buf.length)) := by
    unfold write
    rw [hc]
  have ht : (truncate s p len).2 = put_dblock s d ((get_dblock s d).take len) := by
    unfold truncate
    rw [hc]
  have key : ∀ (b : List Nat) (i : String),
      (db_find (put_dblock s d b).db i).map (fun x => x.inode.mtime) =
        (db_find s.db i).map (fun x => x.inode.mtime) := by
    intro b i
    have h := put_dblock_inode s d b i
    have e1 : (db_find (put_dblock s d b).db i).map (fun x => x.inode.mtime) =
        ((db_find (put_dblock s d b).db i).map (fun x => x.inode)).map
          (fun y => y.mtime) := by
      rw [Option.map_map]
      rfl
    have e2 : (db_find s.db i).map (fun x => x.inode.mtime) =
        ((db_find s.db i).map (fun x => x.inode)).map (fun y => y.mtime) := by
      rw [Option.map_map]
      rfl
    rw [e1, e2, h]
  exact ⟨fun i => by rw [hw]; exact key _ i,
    fun i => by rw [ht]; exact key _ i,
    by rw [hw]; rfl,
    by rw [ht]; rfl⟩

/-- C6 witness: after writing one byte to the opened file `/f`, the
stored `mtime` of its document is exactly what it was before. -/
theorem c6_mtime_unchanged_witness :
    (db_find (write openState "/f" [1] 0).2.db "f1").map
      (fun x => x.inode.mtime) =
      (db_find openState.db "f1").map (fun x => x.inode.mtime) := by
  exact (c6_mtime_unchanged openState "/f" [1] 0 0 fileDoc 1 (by decide)).1 "f1"

/-- C4: under the directory invariants (the entry map contains `.` and
`..` with duplicate-free keys; the parent is resolvable after the delete
step and its map still lists the basename), `rmdir` succeeds iff the
directory's entry map contains exactly the two entries `.` and `..`; with
any extra entry it fails with `-errno.ENOTEMPTY` and the whole state —
in particular the inode document — is left untouched. -/
theorem c4_rmdir_empty_iff (s : FS) (path : String) (d par : Doc)
    (den pden : List (String × String))
    (hd : get_inode s path = some d)
    (hden : get_dentry s d = some den)
    (hdot : "." ∈ den.map Prod.fst)
    (hdotdot : ".." ∈ den.map Prod.fst)
    (hnd : (den.map Prod.fst).Nodup)
    (hpar : get_inode (db_delete s d) (py_split path).1 = some par)
    (hpden : get_dentry (db_delete s d) par = some pden)
    (hbn : pden.any (fun e => e.1 == (py_split path).2) = true) :
    ((rmdir s path).1 = FsResult.ok () ↔ ∀ e ∈ den, e.1 = "." ∨ e.1 = "..") ∧
    ((rmdir s path).1 = FsResult.err Errno.ENOTEMPTY → (rmdir s path).2 = s) := by
  have hkeys := keys_of_card (den.map Prod.fst) hnd hdot hdotdot
  rw [List.length_map] at hkeys
  by_cases hlen : den.length > 2
  · have hr : rmdir s path = (FsResult.err Errno.ENOTEMPTY, s) := by
      simp [rmdir, hd, hden, hlen]
    rw [hr]
    refine ⟨⟨fun h => by simp at h, fun hall => ?_⟩, fun _ => rfl⟩
    exfalso
    have hsmall : den.length ≤ 2 := by
      refine hkeys.mpr ?_
      intro k hk
      obtain ⟨e, he, hek⟩ := List.mem_map.mp hk
      rw [← hek]
      exact hall e he
    omega
  · obtain ⟨pr, hpr⟩ := del_dentry_some (db_delete s d) path par pden hpar hpden hbn
    obtain ⟨a, b⟩ := pr
    have hr : rmdir s path = (FsResult.ok (), b) := by
      simp [rmdir, hd, hden, hlen, hpr]
    rw [hr]
    refine ⟨⟨fun _ => ?_, fun _ => rfl⟩, fun h => by simp at h⟩
    intro e he
    have hsub := hkeys.mp (by omega)
    exact hsub e.1 (List.mem_map_of_mem Prod.fst he)

/-- C4 witness: removing the empty directory `/d` (entry map exactly
`{., ..}`) from the fixture state succeeds. -/
theorem c4_rmdir_empty_iff_witness :
    (rmdir dirState "/d").1 = FsResult.ok () := by
  exact (c4_rmdir_empty_iff dirState "/d" dirDoc rootDocD
    [(".", "d1"), ("..", "root_inode")]
    [(".", "root_inode"), ("..", "root_inode"), ("d", "d1")]
    (by decide) (by decide) (by decide) (by decide) (by decide)
    (by decide) (by decide) (by decide)).1.mpr (by decide)

end CouchFS
